import Mathlib

/-!
# Playback and render dispatch of `src/lottie/lottieplayer.cpp`

A shallow embedding of `LOTPlayerPrivate` (size, position, render, load) and of the
submission path of `RenderTaskScheduler`.

Conventions of the embedding.

* A C++ `float` is a value of `F32`, the IEEE 754 binary32 format: signed zeros, finite
  values, infinities and NaN. Every arithmetic operation computes the exact rational
  result and rounds it to the nearest binary32 value, ties to even; each operation is
  rounded on its own (no extended precision, no fused multiply-add).
* An `int` is a 32-bit signed integer. The conversion `float → int` truncates toward zero
  and is undefined in C++ when the truncated value is not an `int`; `F32.toInt32` returns
  `none` there, and the value a given implementation then produces is the field
  `convUndefined` of the record `Collab`.
* The collaborators declared in headers that are not part of the file
  (`LottieLoader`, `LOTCompItem`, `VSize::isEmpty`, `vCompare`) are the fields of the
  record `Collab`; every definition takes them as a parameter.
* A member function is a function from the player record to an `Outcome`: the value
  returned, the player record afterwards and the list of collaborator calls it made,
  in order.
-/

namespace Lottie

/-! ## Binary32 arithmetic -/

/-- A value of the C++ type `float` (IEEE 754 binary32). `finite neg mag` is the finite
value of magnitude `mag ≥ 0` and sign `neg` (so `finite true 0` is the negative zero),
`inf neg` an infinity, `nan` a NaN. -/
inductive F32 where
  | finite (neg : Bool) (mag : ℚ)
  | inf (neg : Bool)
  | nan
deriving DecidableEq

namespace F32

/-- The rational value of a sign and a magnitude. -/
def val (neg : Bool) (mag : ℚ) : ℚ :=
  if neg then -mag else mag

/-- Rounding of a nonnegative rational to the nearest integer, a tie going to the even
one. -/
def roundHalfEven (t : ℚ) : Int :=
  if t - ⌊t⌋ < 1 / 2 then ⌊t⌋
  else if 1 / 2 < t - ⌊t⌋ then ⌊t⌋ + 1
  else if ⌊t⌋ % 2 = 0 then ⌊t⌋ else ⌊t⌋ + 1

/-- Exponent of the unit in the last place of the binary32 values around the magnitude
`q`: `⌊log₂ q⌋ - 23` with 24 bits of precision, and `-149` throughout the subnormal
range. -/
def ulpExp (q : ℚ) : Int :=
  max (Int.log 2 q) (-126) - 23

/-- The magnitude `q ≥ 0` rounded to the binary32 grid (nearest, ties to even), before
the overflow test. -/
def roundMag (q : ℚ) : ℚ :=
  (roundHalfEven (q / 2 ^ ulpExp q) : ℚ) * 2 ^ ulpExp q

/-- The binary32 value of the exact result of sign `neg` and magnitude `q ≥ 0`: the
rounded magnitude, or an infinity when it exceeds the largest finite value (the grid
point above it is `2 ^ 128`). -/
def round (neg : Bool) (q : ℚ) : F32 :=
  if roundMag q < 2 ^ 128 then finite neg (roundMag q) else inf neg

/-- Conversion of an integer to `float`. -/
def ofInt (z : Int) : F32 :=
  round (decide (z < 0)) (z.natAbs : ℚ)

/-- Truncation of a rational toward zero. -/
def truncate (q : ℚ) : Int :=
  if 0 ≤ q then ⌊q⌋ else ⌈q⌉

/-- Conversion of a `float` to `int`: the value truncated toward zero when that is a
32-bit signed integer, `none` (undefined in C++) otherwise. -/
def toInt32 : F32 → Option Int
  | finite n m =>
    if -2147483648 ≤ truncate (val n m) ∧ truncate (val n m) ≤ 2147483647 then
      some (truncate (val n m))
    else none
  | _ => none

/-- The comparison `a < b`; false as soon as one side is a NaN. -/
def lt : F32 → F32 → Bool
  | finite n1 m1, finite n2 m2 => decide (val n1 m1 < val n2 m2)
  | finite _ _, inf n2 => !n2
  | inf n1, finite _ _ => n1
  | inf n1, inf n2 => n1 && !n2
  | nan, _ => false
  | _, nan => false

/-- The product `a * b`. -/
def mul : F32 → F32 → F32
  | finite n1 m1, finite n2 m2 => round (xor n1 n2) (m1 * m2)
  | finite n1 m1, inf n2 => if m1 = 0 then nan else inf (xor n1 n2)
  | inf n1, finite n2 m2 => if m2 = 0 then nan else inf (xor n1 n2)
  | inf n1, inf n2 => inf (xor n1 n2)
  | nan, _ => nan
  | _, nan => nan

/-- The sum `a + b`. An exact sum of zero is the positive zero unless both terms are
negative zeros. -/
def add : F32 → F32 → F32
  | finite n1 m1, finite n2 m2 =>
    if val n1 m1 + val n2 m2 = 0 then finite (n1 && n2) 0
    else round (decide (val n1 m1 + val n2 m2 < 0)) |val n1 m1 + val n2 m2|
  | finite _ _, inf n2 => inf n2
  | inf n1, finite _ _ => inf n1
  | inf n1, inf n2 => if n1 = n2 then inf n1 else nan
  | nan, _ => nan
  | _, nan => nan

/-- The quotient `a / b`. -/
def div : F32 → F32 → F32
  | finite n1 m1, finite n2 m2 =>
    if m2 = 0 then (if m1 = 0 then nan else inf (xor n1 n2))
    else round (xor n1 n2) (m1 / m2)
  | finite n1 _, inf n2 => finite (xor n1 n2) 0
  | inf n1, finite n2 _ => inf (xor n1 n2)
  | inf _, inf _ => nan
  | nan, _ => nan
  | _, nan => nan

/-- The float `0` (positive zero). -/
def zero : F32 := finite false 0

/-- The float `1`. -/
def one : F32 := finite false 1

/-- The float `-1`. -/
def negOne : F32 := finite true 1

end F32

/-! ## The player -/

/-- Modelled from the spec: the value type `VSize`, whose declaration is not part of the
file; a width and a height. -/
structure VSize where
  mw : Int
  mh : Int
deriving DecidableEq, Repr

/-- Modelled from the spec: the class `LOTModel`, declared in `lottiemodel.h` which is not
part of the file. The record holds what the four getters called by `lottieplayer.cpp`
return (`isStatic` a boolean, `frameDuration` and `startFrame` integers, `frameRate` a
float); the model does not change after the load. -/
structure LOTModel where
  isStatic : Bool
  frameDuration : Int
  frameRate : F32
  startFrame : Int
deriving DecidableEq

/-- One call made to a collaborator object. -/
inductive Call (Buf : Type) where
  | load (path : String)
  | create (m : LOTModel)
  | resize (sz : VSize)
  | update (frameNumber : Int)
  | render (buffer : Buf)
deriving DecidableEq

/-- The collaborators of the player. `Comp` is the internal state of a `LOTCompItem`,
`Buf` the type `LOTBuffer`.

* `vCompare a b`: the helper of `vglobal.h`, equality of two floats within a tolerance;
* `isEmpty sz`: `VSize::isEmpty`;
* `load path`: `LottieLoader::load` followed by `LottieLoader::model`, `none` when the
  load reports failure;
* `mkCompItem m`: the constructor `LOTCompItem(model)`;
* `resize`, `update`, `render`: the member functions of `LOTCompItem`, returning the
  item afterwards (and the boolean they return);
* `convUndefined f`: the `int` the implementation produces when it converts to `int` a
  float `f` for which C++ leaves the conversion undefined. -/
structure Collab (Comp Buf : Type) where
  vCompare : F32 → F32 → Bool
  isEmpty : VSize → Bool
  load : String → Option LOTModel
  mkCompItem : LOTModel → Comp
  resize : Comp → VSize → Comp
  size : Comp → VSize
  update : Comp → Int → Bool × Comp
  render : Comp → Buf → Bool × Comp
  convUndefined : F32 → Int

/-- The data members of `LOTPlayerPrivate`. A null `mModel` or `mCompItem` is `none`. -/
structure LOTPlayerPrivate (Comp : Type) where
  mFilePath : String
  mModel : Option LOTModel
  mCompItem : Option Comp
  mSize : VSize
  mRenderInProgress : Bool
  mPos : F32

/-- What a member function produced: returned value, player afterwards, collaborator
calls made. -/
structure Outcome (α Comp Buf : Type) where
  ret : α
  state : LOTPlayerPrivate Comp
  calls : List (Call Buf)

/-- Constructor `LOTPlayerPrivate() : mRenderInProgress(false), mPos(-1)`; the other
members are default-constructed (empty path, null pointers, zero size). -/
def LOTPlayerPrivate.new (Comp : Type) : LOTPlayerPrivate Comp :=
  { mFilePath := "", mModel := none, mCompItem := none, mSize := ⟨0, 0⟩,
    mRenderInProgress := false, mPos := F32.negOne }

variable {Comp Buf : Type}

/-- Member function `void LOTPlayerPrivate::setSize(const VSize &sz)`. -/
def setSize (x : Collab Comp Buf) (s : LOTPlayerPrivate Comp) (sz : VSize) :
    Outcome Unit Comp Buf :=
  let s1 := { s with mSize := sz }
  match s1.mCompItem with
  | none => ⟨(), s1, []⟩
  | some c => ⟨(), { s1 with mCompItem := some (x.resize c sz) }, [Call.resize sz]⟩

/-- Member function `VSize LOTPlayerPrivate::size() const`. -/
def size (x : Collab Comp Buf) (s : LOTPlayerPrivate Comp) : VSize :=
  match s.mCompItem with
  | none => s.mSize
  | some c => x.size c

/-- Member function `float LOTPlayerPrivate::playTime() const`: the float `0`, or the
float quotient of the two getters converted to `float`. -/
def playTime (s : LOTPlayerPrivate Comp) : F32 :=
  match s.mModel with
  | none => F32.zero
  | some m =>
    if m.isStatic then F32.zero else F32.div (F32.ofInt m.frameDuration) m.frameRate

/-- The three assignments to the local `pos` at the head of `setPos`
(`if (pos > 1.0) pos = 1.0; if (pos < 0) pos = 0; if (isStatic) pos = 0;`). -/
def effectivePos (m : LOTModel) (pos : F32) : F32 :=
  let pos := if F32.lt F32.one pos then F32.one else pos
  let pos := if F32.lt pos F32.zero then F32.zero else pos
  if m.isStatic then F32.zero else pos

/-- The float expression `mModel->startFrame() + pos * mModel->frameDuration()` of
`setPos`: both integers are converted to `float`, the product is rounded, then the
sum. -/
def frameExpr (m : LOTModel) (pos : F32) : F32 :=
  F32.add (F32.ofInt m.startFrame) (F32.mul pos (F32.ofInt m.frameDuration))

/-- The initialisation `int frameNumber = startFrame + pos * frameDuration` of `setPos`:
the float expression converted to `int`. -/
def frameNumber (x : Collab Comp Buf) (m : LOTModel) (pos : F32) : Int :=
  match F32.toInt32 (frameExpr m pos) with
  | some n => n
  | none => x.convUndefined (frameExpr m pos)

/-- Member function `bool LOTPlayerPrivate::setPos(float pos)`. No statement of it
assigns `mPos`. -/
def setPos (x : Collab Comp Buf) (s : LOTPlayerPrivate Comp) (pos : F32) :
    Outcome Bool Comp Buf :=
  match s.mModel, s.mCompItem with
  | some m, some c =>
    let pos := effectivePos m pos
    if x.vCompare pos s.mPos then ⟨true, s, []⟩
    else
      let r := x.update c (frameNumber x m pos)
      ⟨r.1, { s with mCompItem := some r.2 }, [Call.update (frameNumber x m pos)]⟩
  | _, _ => ⟨false, s, []⟩

/-- Member function `float LOTPlayerPrivate::pos()`. -/
def pos (s : LOTPlayerPrivate Comp) : F32 :=
  s.mPos

/-- Member function `bool LOTPlayerPrivate::render(float pos, const LOTBuffer &buffer)`.
The load of the flag before the store only feeds a log line and is left out. The
composition item is present after `setPos` whenever it was present before; the `none`
arm of the inner match stands for the null dereference that cannot happen. -/
def render (x : Collab Comp Buf) (s : LOTPlayerPrivate Comp) (pos : F32) (buffer : Buf) :
    Outcome Bool Comp Buf :=
  match s.mCompItem with
  | none => ⟨false, s, []⟩
  | some _ =>
    let r := setPos x { s with mRenderInProgress := true } pos
    if r.ret then
      match r.state.mCompItem with
      | some c =>
        let q := x.render c buffer
        ⟨q.1, { r.state with mCompItem := some q.2, mRenderInProgress := false },
          r.calls ++ [Call.render buffer]⟩
      | none => ⟨false, { r.state with mRenderInProgress := false }, r.calls⟩
    else
      ⟨false, { r.state with mRenderInProgress := false }, r.calls⟩

/-- Member function `bool LOTPlayerPrivate::setFilePath(std::string path)`. -/
def setFilePath (x : Collab Comp Buf) (s : LOTPlayerPrivate Comp) (path : String) :
    Outcome Bool Comp Buf :=
  if path.isEmpty then ⟨false, s, []⟩
  else
    match x.load path with
    | some m =>
      let s1 := { s with mModel := some m, mCompItem := some (x.mkCompItem m) }
      if !x.isEmpty s1.mSize then
        let a := setSize x s1 s1.mSize
        let b := setPos x a.state F32.zero
        ⟨true, b.state, [Call.load path, Call.create m] ++ a.calls ++ b.calls⟩
      else
        ⟨true, s1, [Call.load path, Call.create m]⟩
    | none => ⟨false, s, [Call.load path]⟩

/-- The position the specification assigns to a request: `0` for a static animation,
otherwise the request clamped to `[0, 1]` (`0` below `0`, `1` above `1`, the request
itself otherwise). Written from the words of the specification, to be compared with
`effectivePos`. -/
def clampedPos (m : LOTModel) (p : F32) : F32 :=
  if m.isStatic then F32.zero
  else if F32.lt p F32.zero then F32.zero
  else if F32.lt F32.one p then F32.one
  else p

/-- Whether a collaborator call is `LOTCompItem::render`. -/
def Call.isRender : Call Buf → Bool
  | Call.render _ => true
  | _ => false

/-- The player states that executions reach from a new player: through the member
functions run to completion, and, for a player with a composition item, at the point of
`render` where the flag has been stored and the rest of `render` is still to run (the
state another thread calling into the same player observes). -/
inductive Reachable (x : Collab Comp Buf) : LOTPlayerPrivate Comp → Prop where
  | new : Reachable x (LOTPlayerPrivate.new Comp)
  | setFilePath (s : LOTPlayerPrivate Comp) (path : String) :
      Reachable x s → Reachable x (setFilePath x s path).state
  | setSize (s : LOTPlayerPrivate Comp) (sz : VSize) :
      Reachable x s → Reachable x (setSize x s sz).state
  | setPos (s : LOTPlayerPrivate Comp) (p : F32) :
      Reachable x s → Reachable x (setPos x s p).state
  | render (s : LOTPlayerPrivate Comp) (p : F32) (b : Buf) :
      Reachable x s → Reachable x (render x s p b).state
  | renderEntered (s : LOTPlayerPrivate Comp) :
      Reachable x s → s.mCompItem.isSome = true →
      Reachable x { s with mRenderInProgress := true }

/-! ## The submission path of `RenderTaskScheduler` -/

/-- Number of values of the C++ type `unsigned` (32 bits). -/
def UNSIGNED_RANGE : Nat := 2 ^ 32

/-- The data members of `RenderTaskScheduler` that `async` touches. The class `TaskQueue`
is declared in `vtaskqueue.h`, which is not part of the file: a queue is the list of the
tasks it holds, oldest first, and the outcome of each `try_push` is a parameter of
`async`. -/
structure RenderTaskScheduler (Task : Type) where
  _count : Nat
  _q : List (List Task)
  _index : Nat

/-- The queue index `(i + n) % _count` of `async`, with `i + n` computed in `unsigned`
arithmetic. -/
def queueIndex (count i n : Nat) : Nat :=
  ((i + n) % UNSIGNED_RANGE) % count

/-- The loop `for (unsigned n = 0; n != _count; ++n) if (_q[(i + n) % _count].try_push(task))
return receiver;` of `async`, started at `n` with `fuel = _count - n` iterations left.
`accepts n k` tells whether the `try_push` of iteration `n`, made on queue `k`, takes
the task. The result is the list of queues on which `try_push` was called, in order, and
the queue that took the task, if any. -/
def tryPushLoop (count i : Nat) (accepts : Nat → Nat → Bool) : Nat → Nat → List Nat × Option Nat
  | 0, _ => ([], none)
  | fuel + 1, n =>
    if accepts n (queueIndex count i n) then ([queueIndex count i n], some (queueIndex count i n))
    else
      let r := tryPushLoop count i accepts fuel (n + 1)
      (queueIndex count i n :: r.1, r.2)

/-- What one call of `async` did: the queues probed with `try_push`, the queue that
received the task and whether it received it through the blocking `push`. -/
structure Submission where
  attempts : List Nat
  placed : Nat
  blocking : Bool
deriving DecidableEq, Repr

/-- Appending a task to queue `k` (`try_push` that succeeds, or `push`). -/
def enqueue {Task : Type} (q : List (List Task)) (k : Nat) (task : Task) : List (List Task) :=
  q.set k (q.getD k [] ++ [task])

/-- Member function `std::future<bool> RenderTaskScheduler::async(RenderTask *task)`:
the cursor is read and incremented (`_index++`), the queues are probed, and the blocking
`push` on queue `i % _count` is the fallback. -/
def async {Task : Type} (sch : RenderTaskScheduler Task) (task : Task)
    (accepts : Nat → Nat → Bool) : Submission × RenderTaskScheduler Task :=
  let i := sch._index
  let r := tryPushLoop sch._count i accepts sch._count 0
  match r.2 with
  | some k =>
    (⟨r.1, k, false⟩,
      { sch with _index := (i + 1) % UNSIGNED_RANGE, _q := enqueue sch._q k task })
  | none =>
    (⟨r.1, i % sch._count, true⟩,
      { sch with _index := (i + 1) % UNSIGNED_RANGE,
                 _q := enqueue sch._q (i % sch._count) task })

/-- The cyclic order `i, i+1, ...` of the `count` queues, wrapping modulo `count`. Written
from the words of the specification, to be compared with the probes of `tryPushLoop`. -/
def cyclicOrder (count i : Nat) : List Nat :=
  (List.range count).map (fun n => (i % count + n) % count)

/-! ## Sample collaborators used to evaluate the definitions -/

/-- A sample model: 48 frames at 24 frames per second, starting at frame 0. -/
def sampleModel : LOTModel :=
  { isStatic := false, frameDuration := 48, frameRate := F32.finite false 24,
    startFrame := 0 }

/-- A sample model of 10 frames, starting at frame 0. -/
def sampleModelTen : LOTModel :=
  { isStatic := false, frameDuration := 10, frameRate := F32.finite false 24,
    startFrame := 0 }

/-- A static sample model whose start frame `16777217 = 2 ^ 24 + 1` is not a binary32
value. -/
def sampleModelStatic : LOTModel :=
  { isStatic := true, frameDuration := 48, frameRate := F32.finite false 24,
    startFrame := 16777217 }

/-- Sample collaborators. The composition item remembers the frames it was updated to
(latest first); `update` always asks for a re-render; `render` succeeds exactly when the
buffer (here a boolean) is `true`; `vCompare` holds for two finite values less than
`1/1000000` apart; the loader knows one file; an undefined conversion to `int` produces
the smallest `int`. -/
def sampleCollab : Collab (List Int) Bool where
  vCompare := fun a b =>
    match a, b with
    | F32.finite n1 m1, F32.finite n2 m2 =>
      decide (|F32.val n1 m1 - F32.val n2 m2| < 1 / 1000000)
    | _, _ => false
  isEmpty := fun sz => decide (sz.mw ≤ 0 ∨ sz.mh ≤ 0)
  load := fun path => if path = "anim.json" then some sampleModel else none
  mkCompItem := fun _ => []
  resize := fun c _ => c
  size := fun _ => ⟨0, 0⟩
  update := fun c f => (true, f :: c)
  render := fun c b => (b, c)
  convUndefined := fun _ => -2147483648

/-- The float `0.5`. -/
def half : F32 := F32.finite false (1 / 2)

/-- The float nearest to `0.7`, which is `11744051 / 2 ^ 24`. -/
def sevenTenths : F32 := F32.finite false (11744051 / 16777216)

/-- The player right after `setFilePath("anim.json")` on a new player. -/
def sampleLoaded : LOTPlayerPrivate (List Int) :=
  { mFilePath := "", mModel := some sampleModel, mCompItem := some [], mSize := ⟨0, 0⟩,
    mRenderInProgress := false, mPos := F32.negOne }

/-- A loaded player whose model is `sampleModelTen`. -/
def sampleLoadedTen : LOTPlayerPrivate (List Int) :=
  { sampleLoaded with mModel := some sampleModelTen }

/-- A loaded player whose model is `sampleModelStatic`. -/
def sampleLoadedStatic : LOTPlayerPrivate (List Int) :=
  { sampleLoaded with mModel := some sampleModelStatic }

/-- The loaded sample player with the flag `mRenderInProgress` set, as it is while
another render of the same player is running. -/
def sampleLoadedBusy : LOTPlayerPrivate (List Int) :=
  { sampleLoaded with mRenderInProgress := true }

/-- A scheduler with three workers whose cursor holds the largest `unsigned` value. -/
def sampleScheduler : RenderTaskScheduler Nat :=
  { _count := 3, _q := [[], [], []], _index := 4294967295 }

/-! ## Lemmas on binary32 arithmetic -/

namespace F32

theorem roundHalfEven_intCast (k : Int) : roundHalfEven (k : ℚ) = k := by
  unfold roundHalfEven
  simp

theorem log_two_eq (q : ℚ) (e : Int) (hq : 0 < q) (h1 : (2 : ℚ) ^ e ≤ q)
    (h2 : q < (2 : ℚ) ^ (e + 1)) : Int.log 2 q = e := by
  have ha : e ≤ Int.log 2 q := by
    have := (Int.zpow_le_iff_le_log (b := 2) (by norm_num) hq (x := e)).mp (by exact_mod_cast h1)
    exact this
  have hb : Int.log 2 q < e + 1 := by
    have := (Int.lt_zpow_iff_log_lt (b := 2) (by norm_num) hq (x := e + 1)).mp
      (by exact_mod_cast h2)
    exact this
  omega

/-- A magnitude that is an integer multiple of its unit in the last place is left as it
is by the rounding. -/
theorem roundMag_of_multiple (q : ℚ) (k : Int) (h : q / 2 ^ ulpExp q = k) : roundMag q = q := by
  unfold roundMag
  rw [h, roundHalfEven_intCast, ← h]
  have h2 : (2 : ℚ) ^ ulpExp q ≠ 0 := zpow_ne_zero _ (by norm_num)
  field_simp

theorem roundMag_zero : roundMag 0 = 0 :=
  roundMag_of_multiple 0 0 (by simp)

theorem ulpExp_natCast (n : ℕ) : ulpExp (n : ℚ) = (Nat.log 2 n : Int) - 23 := by
  unfold ulpExp
  rw [Int.log_natCast, max_eq_left (by omega)]

/-- Every natural number up to `2 ^ 24` is a binary32 value. -/
theorem roundMag_natCast (n : ℕ) (h : n ≤ 2 ^ 24) : roundMag (n : ℚ) = n := by
  rcases Nat.lt_or_ge n (2 ^ 24) with hlt | hge
  · have he : Nat.log 2 n ≤ 23 := by
      by_cases h0 : n = 0
      · simp [h0]
      · have h24 := Nat.log_lt_of_lt_pow h0 hlt
        omega
    apply roundMag_of_multiple _ ((n * 2 ^ (23 - Nat.log 2 n) : ℕ) : Int)
    rw [ulpExp_natCast]
    have hneg : ((Nat.log 2 n : Int) - 23) = -((23 - Nat.log 2 n : ℕ) : Int) := by omega
    rw [hneg, zpow_neg, zpow_natCast]
    push_cast
    field_simp
  · have h24 : n = 2 ^ 24 := le_antisymm h hge
    subst h24
    apply roundMag_of_multiple _ (2 ^ 23)
    rw [ulpExp_natCast, Nat.log_pow (by norm_num) 24]
    norm_num

theorem round_natCast (neg : Bool) (n : ℕ) (h : n ≤ 2 ^ 24) :
    round neg (n : ℚ) = finite neg (n : ℚ) := by
  unfold round
  rw [roundMag_natCast n h, if_pos]
  have h1 : (n : ℚ) ≤ 2 ^ 24 := by exact_mod_cast h
  have h2 : (2 : ℚ) ^ 24 < 2 ^ 128 := by norm_num
  linarith

theorem round_eq_natCast (neg : Bool) (q : ℚ) (n : ℕ) (hq : q = n) (h : n ≤ 2 ^ 24) :
    round neg q = finite neg (n : ℚ) := by
  rw [hq, round_natCast neg n h]

theorem val_natAbs (z : Int) : val (decide (z < 0)) (z.natAbs : ℚ) = z := by
  unfold val
  rw [Nat.cast_natAbs, Int.cast_abs]
  by_cases h : z < 0
  · have hq : (z : ℚ) < 0 := by exact_mod_cast h
    simp [h, abs_of_neg hq]
  · have hq : (0 : ℚ) ≤ z := by exact_mod_cast not_lt.mp h
    simp [h, abs_of_nonneg hq]

theorem val_zero (neg : Bool) : val neg 0 = 0 := by
  unfold val
  split <;> simp

/-- An integer of magnitude at most `2 ^ 24` converts to `float` without rounding. -/
theorem ofInt_small (z : Int) (h : z.natAbs ≤ 2 ^ 24) :
    ofInt z = finite (decide (z < 0)) (z.natAbs : ℚ) :=
  round_natCast _ _ h

theorem truncate_intCast (z : Int) : truncate (z : ℚ) = z := by
  unfold truncate
  split <;> simp

theorem toInt32_signed (z : Int) (h1 : -2147483648 ≤ z) (h2 : z ≤ 2147483647) :
    toInt32 (finite (decide (z < 0)) (z.natAbs : ℚ)) = some z := by
  simp only [toInt32, val_natAbs, truncate_intCast]
  rw [if_pos ⟨h1, h2⟩]

theorem toInt32_zero (neg : Bool) : toInt32 (finite neg 0) = some 0 := by
  simp only [toInt32, val_zero]
  have h0 : truncate 0 = 0 := truncate_intCast 0
  rw [h0]
  rfl

theorem roundHalfEven_le (t : ℚ) : (roundHalfEven t : ℚ) ≤ t + 1 := by
  have hf : ((⌊t⌋ : Int) : ℚ) ≤ t := Int.floor_le t
  unfold roundHalfEven
  split_ifs <;> push_cast <;> linarith

/-- A positive integer rounds to at most twice itself. -/
theorem roundMag_natCast_le (n : ℕ) (h : 1 ≤ n) : roundMag (n : ℚ) ≤ 2 * n := by
  have hn : (0 : ℚ) < n := by exact_mod_cast h
  have hu : (0 : ℚ) < 2 ^ ulpExp (n : ℚ) := zpow_pos (by norm_num) _
  have hle : (2 : ℚ) ^ ulpExp (n : ℚ) ≤ n := by
    have h1 : (2 : ℚ) ^ ulpExp (n : ℚ) ≤ 2 ^ Int.log 2 (n : ℚ) := by
      apply zpow_le_zpow_right₀ (by norm_num)
      rw [ulpExp_natCast, Int.log_natCast]
      omega
    have h2 : ((2 : ℕ) : ℚ) ^ Int.log 2 (n : ℚ) ≤ n := Int.zpow_log_le_self (by norm_num) hn
    have h3 : (2 : ℚ) ^ Int.log 2 (n : ℚ) ≤ n := by exact_mod_cast h2
    linarith
  unfold roundMag
  have hr := roundHalfEven_le ((n : ℚ) / 2 ^ ulpExp (n : ℚ))
  calc (roundHalfEven ((n : ℚ) / 2 ^ ulpExp (n : ℚ)) : ℚ) * 2 ^ ulpExp (n : ℚ)
      ≤ ((n : ℚ) / 2 ^ ulpExp (n : ℚ) + 1) * 2 ^ ulpExp (n : ℚ) :=
        mul_le_mul_of_nonneg_right hr (le_of_lt hu)
    _ = n + 2 ^ ulpExp (n : ℚ) := by field_simp
    _ ≤ 2 * n := by linarith

/-- An integer of magnitude below `2 ^ 127`, in particular every value of a C++ integer
type of at most 64 bits, converts to a finite `float`. -/
theorem ofInt_finite (z : Int) (h : z.natAbs < 2 ^ 127) :
    ofInt z = finite (decide (z < 0)) (roundMag (z.natAbs : ℚ)) := by
  unfold ofInt round
  rw [if_pos]
  rcases Nat.eq_zero_or_pos z.natAbs with h0 | hpos
  · rw [h0, Nat.cast_zero, roundMag_zero]
    norm_num
  · have h1 := roundMag_natCast_le z.natAbs hpos
    have h2 : ((z.natAbs : ℕ) : ℚ) < 2 ^ 127 := by exact_mod_cast h
    have h3 : (2 : ℚ) * 2 ^ 127 = 2 ^ 128 := by norm_num
    linarith

theorem mul_zero_finite (n1 n2 : Bool) (m : ℚ) :
    mul (finite n1 0) (finite n2 m) = finite (xor n1 n2) 0 := by
  simp only [mul, zero_mul]
  unfold round
  rw [roundMag_zero, if_pos (by norm_num)]

theorem mul_one_signed (z : Int) (h : z.natAbs ≤ 2 ^ 24) :
    mul one (finite (decide (z < 0)) (z.natAbs : ℚ))
      = finite (decide (z < 0)) (z.natAbs : ℚ) := by
  simp only [mul, one, one_mul, Bool.false_xor]
  exact round_natCast _ _ h

theorem abs_cast_add (a b : Int) : |(a : ℚ) + (b : ℚ)| = ((a + b).natAbs : ℚ) := by
  rw [Nat.cast_natAbs, Int.cast_abs, Int.cast_add]

/-- The sum of two integer-valued floats whose exact sum has magnitude at most `2 ^ 24`
converts to that sum. -/
theorem toInt32_add_signed (a b : Int) (h : (a + b).natAbs ≤ 2 ^ 24) :
    toInt32 (add (finite (decide (a < 0)) (a.natAbs : ℚ))
      (finite (decide (b < 0)) (b.natAbs : ℚ))) = some (a + b) := by
  simp only [add, val_natAbs]
  by_cases h0 : (a : ℚ) + (b : ℚ) = 0
  · rw [if_pos h0, toInt32_zero]
    have hz : a + b = 0 := by exact_mod_cast h0
    rw [hz]
  · rw [if_neg h0, abs_cast_add, round_natCast _ _ h]
    have hd : decide ((a : ℚ) + (b : ℚ) < 0) = decide (a + b < 0) := by
      congr 1
      exact propext (by exact_mod_cast Iff.rfl)
    rw [hd]
    apply toInt32_signed <;> omega

/-- Adding a zero of either sign to an integer-valued float of magnitude at most `2 ^ 24`
and converting gives the integer. -/
theorem toInt32_add_zero (a : Int) (n : Bool) (h : a.natAbs ≤ 2 ^ 24) :
    toInt32 (add (finite (decide (a < 0)) (a.natAbs : ℚ)) (finite n 0)) = some a := by
  simp only [add, val_natAbs, val_zero, add_zero]
  by_cases h0 : (a : ℚ) = 0
  · rw [if_pos h0, toInt32_zero]
    have hz : a = 0 := by exact_mod_cast h0
    rw [hz]
  · rw [if_neg h0, Int.cast_abs.symm, ← Nat.cast_natAbs, round_natCast _ _ h]
    have hd : decide ((a : ℚ) < 0) = decide (a < 0) := by
      congr 1
      exact propext (by exact_mod_cast Iff.rfl)
    rw [hd]
    apply toInt32_signed <;> omega

end F32
/-! ## Lemmas on the position -/

/-- The three assignments at the head of `setPos` compute the clamped position of the
specification. -/
theorem effectivePos_eq_clampedPos (m : LOTModel) (p : F32) :
    effectivePos m p = clampedPos m p := by
  unfold effectivePos clampedPos
  cases hs : m.isStatic with
  | true => simp
  | false =>
    simp only [Bool.false_eq_true, if_false]
    cases p with
    | nan => simp [F32.lt, F32.one, F32.zero]
    | inf n => cases n <;> simp [F32.lt, F32.one, F32.zero, F32.val]
    | finite n q =>
      simp only [F32.lt, F32.one, F32.zero, F32.val, Bool.false_eq_true, if_false,
        decide_eq_true_eq]
      by_cases h1 : (1 : ℚ) < if n = true then -q else q
      · have h0 : ¬ ((if n = true then -q else q) < 0) := by linarith
        have h10 : ¬ ((1 : ℚ) < 0) := by norm_num
        simp [h1, h0, h10]
      · simp [h1]

/-- A finite clamped position has a value in `[0, 1]`. -/
theorem clampedPos_finite (m : LOTModel) (p : F32) (n : Bool) (q : ℚ)
    (h : clampedPos m p = F32.finite n q) : 0 ≤ F32.val n q ∧ F32.val n q ≤ 1 := by
  unfold clampedPos at h
  split at h
  · cases h; simp [F32.val]
  · split at h
    · cases h; simp [F32.val]
    · split at h
      · cases h; simp [F32.val]
      · rename_i h0 h1
        subst h
        simp only [F32.lt, F32.one, F32.zero, F32.val, Bool.false_eq_true, if_false,
          decide_eq_true_eq, not_lt] at h0 h1
        exact ⟨h0, h1⟩

/-- Where the conversion to `int` is defined, the frame number is the converted value. -/
theorem frameNumber_of_toInt32 (x : Collab Comp Buf) (m : LOTModel) (p : F32) (n : Int)
    (h : F32.toInt32 (frameExpr m p) = some n) : frameNumber x m p = n := by
  unfold frameNumber
  rw [h]

/-- The body of `setPos` on a player that has a model and a composition item. -/
theorem setPos_loaded (x : Collab Comp Buf) (s : LOTPlayerPrivate Comp) (m : LOTModel)
    (c : Comp) (p : F32) (hm : s.mModel = some m) (hc : s.mCompItem = some c) :
    setPos x s p =
      if x.vCompare (clampedPos m p) s.mPos then ⟨true, s, []⟩
      else
        ⟨(x.update c (frameNumber x m (clampedPos m p))).1,
          { s with mCompItem := some (x.update c (frameNumber x m (clampedPos m p))).2 },
          [Call.update (frameNumber x m (clampedPos m p))]⟩ := by
  unfold setPos
  rw [hm, hc, ← effectivePos_eq_clampedPos]

theorem setPos_unloaded (x : Collab Comp Buf) (s : LOTPlayerPrivate Comp) (p : F32)
    (h : s.mModel = none ∨ s.mCompItem = none) : setPos x s p = ⟨false, s, []⟩ := by
  unfold setPos
  rcases h with h | h
  · rw [h]
  · rw [h]; cases s.mModel <;> rfl

/-- Every data member other than the composition item is left as it was by `setPos`, and
a composition item is present afterwards exactly when one was present before. -/
theorem setPos_fields (x : Collab Comp Buf) (s : LOTPlayerPrivate Comp) (p : F32) :
    (setPos x s p).state.mFilePath = s.mFilePath ∧ (setPos x s p).state.mModel = s.mModel ∧
    (setPos x s p).state.mSize = s.mSize ∧
    (setPos x s p).state.mRenderInProgress = s.mRenderInProgress ∧
    (setPos x s p).state.mPos = s.mPos ∧
    ((setPos x s p).state.mCompItem.isSome = s.mCompItem.isSome) := by
  unfold setPos
  split
  · rename_i m c hm hc
    dsimp only
    split
    · simp
    · simp [hc]
  · simp

theorem setPos_calls_no_render (x : Collab Comp Buf) (s : LOTPlayerPrivate Comp) (p : F32) :
    ((setPos x s p).calls.filter Call.isRender) = [] := by
  unfold setPos
  split
  · dsimp only
    split <;> simp [Call.isRender]
  · rfl

/-- Repeating a `setPos` request makes the same collaborator calls again: since `mPos`
keeps its value, the comparison of the second call has the outcome of the first. -/
theorem setPos_repeat_calls (x : Collab Comp Buf) (s : LOTPlayerPrivate Comp) (p : F32) :
    (setPos x (setPos x s p).state p).calls = (setPos x s p).calls := by
  obtain ⟨fp, mo, ci, sz, fl, ps⟩ := s
  cases mo with
  | none => simp [setPos]
  | some m =>
    cases ci with
    | none => simp [setPos]
    | some c =>
      by_cases hv : x.vCompare (effectivePos m p) ps = true
      · simp [setPos, hv]
      · have hv2 : x.vCompare (effectivePos m p) ps = false := by simpa using hv
        simp [setPos, hv2]

theorem setSize_fields (x : Collab Comp Buf) (s : LOTPlayerPrivate Comp) (sz : VSize) :
    (setSize x s sz).state.mPos = s.mPos ∧
    (setSize x s sz).state.mRenderInProgress = s.mRenderInProgress ∧
    (setSize x s sz).state.mCompItem.isSome = s.mCompItem.isSome := by
  unfold setSize
  dsimp only
  split
  · rename_i h
    exact ⟨rfl, rfl, by rw [h]⟩
  · rename_i c h
    exact ⟨rfl, rfl, by rw [h]; rfl⟩

theorem setFilePath_fields (x : Collab Comp Buf) (s : LOTPlayerPrivate Comp) (path : String) :
    (setFilePath x s path).state.mPos = s.mPos ∧
    (setFilePath x s path).state.mRenderInProgress = s.mRenderInProgress ∧
    (s.mCompItem.isSome = true → (setFilePath x s path).state.mCompItem.isSome = true) := by
  unfold setFilePath
  split
  · exact ⟨rfl, rfl, fun h => h⟩
  · split
    · dsimp only
      split
      · dsimp only
        rw [(setPos_fields x _ F32.zero).2.2.2.2.1, (setPos_fields x _ F32.zero).2.2.2.1,
          (setPos_fields x _ F32.zero).2.2.2.2.2,
          (setSize_fields x _ _).1, (setSize_fields x _ _).2.1, (setSize_fields x _ _).2.2]
        exact ⟨rfl, rfl, fun _ => rfl⟩
      · exact ⟨rfl, rfl, fun _ => rfl⟩
    · exact ⟨rfl, rfl, fun h => h⟩

/-! ## Lemmas on `render` -/

theorem render_unloaded (x : Collab Comp Buf) (s : LOTPlayerPrivate Comp) (p : F32) (b : Buf)
    (h : s.mCompItem = none) : render x s p b = ⟨false, s, []⟩ := by
  unfold render
  rw [h]

/-- The body of `render` for a player with a composition item, in terms of `setPos` run
on the entry state. -/
theorem render_loaded (x : Collab Comp Buf) (s : LOTPlayerPrivate Comp) (c : Comp)
    (p : F32) (b : Buf) (hc : s.mCompItem = some c) :
    ∃ c1, (setPos x s p).state.mCompItem = some c1 ∧
      render x s p b =
        if (setPos x s p).ret then
          ⟨(x.render c1 b).1,
            { s with mCompItem := some (x.render c1 b).2, mRenderInProgress := false },
            (setPos x s p).calls ++ [Call.render b]⟩
        else
          ⟨false, { s with mCompItem := some c1, mRenderInProgress := false },
            (setPos x s p).calls⟩ := by
  obtain ⟨fp, mo, ci, sz, fl, ps⟩ := s
  simp only at hc
  subst hc
  cases mo with
  | none => exact ⟨c, by simp [setPos], by simp [render, setPos]⟩
  | some m =>
    by_cases hv : x.vCompare (effectivePos m p) ps = true
    · exact ⟨c, by simp [setPos, hv], by simp [render, setPos, hv]⟩
    · refine ⟨(x.update c (frameNumber x m (effectivePos m p))).2, by simp [setPos, hv], ?_⟩
      have hv2 : x.vCompare (effectivePos m p) ps = false := by simpa using hv
      simp only [render, setPos, hv2]
      simp only [Bool.false_eq_true, if_false]

/-- What `render` leaves in the data members other than the composition item: the
position is kept, the flag is cleared on a player with a composition item and kept on a
player without one, and a composition item that was present is still present. -/
theorem render_fields (x : Collab Comp Buf) (s : LOTPlayerPrivate Comp) (p : F32) (b : Buf) :
    (render x s p b).state.mPos = s.mPos ∧
    (s.mCompItem.isSome = true → (render x s p b).state.mRenderInProgress = false) ∧
    (s.mCompItem = none →
      (render x s p b).state.mRenderInProgress = s.mRenderInProgress) ∧
    ((render x s p b).state.mCompItem.isSome = s.mCompItem.isSome) := by
  cases hc : s.mCompItem with
  | none =>
    rw [render_unloaded x s p b hc]
    exact ⟨rfl, fun h => by simp at h, fun _ => rfl, by simp [hc]⟩
  | some c =>
    obtain ⟨c1, -, hr⟩ := render_loaded x s c p b hc
    rw [hr]
    split <;> exact ⟨rfl, fun _ => rfl, fun h => by simp at h, rfl⟩

/-- In every reachable state, `mPos` still holds the value `-1` the constructor gave it,
and the flag `mRenderInProgress` is set only if the player has a composition item. -/
theorem reachable_invariant (x : Collab Comp Buf) (s : LOTPlayerPrivate Comp)
    (h : Reachable x s) :
    s.mPos = F32.negOne ∧ (s.mRenderInProgress = true → s.mCompItem.isSome = true) := by
  induction h with
  | new => exact ⟨rfl, fun h => by simp [LOTPlayerPrivate.new] at h⟩
  | setFilePath s path _ ih =>
    rw [(setFilePath_fields x s path).1, (setFilePath_fields x s path).2.1]
    exact ⟨ih.1, fun h => (setFilePath_fields x s path).2.2 (ih.2 h)⟩
  | setSize s sz _ ih =>
    rw [(setSize_fields x s sz).1, (setSize_fields x s sz).2.1, (setSize_fields x s sz).2.2]
    exact ih
  | setPos s p _ ih =>
    rw [(setPos_fields x s p).2.2.2.2.1, (setPos_fields x s p).2.2.2.1,
      (setPos_fields x s p).2.2.2.2.2]
    exact ih
  | render s p b _ ih =>
    rw [(render_fields x s p b).1, (render_fields x s p b).2.2.2]
    refine ⟨ih.1, fun h => ?_⟩
    cases hc : s.mCompItem with
    | some c => rfl
    | none =>
      rw [(render_fields x s p b).2.2.1 hc] at h
      have h2 := ih.2 h
      rw [hc] at h2
      exact h2
  | renderEntered s _ hc ih => exact ⟨ih.1, fun _ => hc⟩

/-! ## Evaluation of the rounding on given values -/

namespace F32

theorem roundHalfEven_up (t : ℚ) (f : Int) (h1 : (f : ℚ) + 1 / 2 < t) (h2 : t < (f : ℚ) + 1) :
    roundHalfEven t = f + 1 := by
  have hf : ⌊t⌋ = f := Int.floor_eq_iff.mpr ⟨by linarith, h2⟩
  unfold roundHalfEven
  rw [hf, if_neg (by linarith), if_pos (by linarith)]

theorem roundHalfEven_tie_even (t : ℚ) (f : Int) (h : t = (f : ℚ) + 1 / 2) (he : f % 2 = 0) :
    roundHalfEven t = f := by
  have hf : ⌊t⌋ = f := Int.floor_eq_iff.mpr ⟨by linarith, by linarith⟩
  unfold roundHalfEven
  rw [hf, if_neg (by linarith), if_neg (by linarith), if_pos he]

/-- The rounded magnitude of a normal-range `q` with `2 ^ e ≤ q < 2 ^ (e + 1)`. -/
theorem roundMag_eq (q : ℚ) (e k : Int) (hq : 0 < q) (h1 : (2 : ℚ) ^ e ≤ q)
    (h2 : q < (2 : ℚ) ^ (e + 1)) (he : -126 ≤ e)
    (hk : roundHalfEven (q / 2 ^ (e - 23)) = k) : roundMag q = (k : ℚ) * 2 ^ (e - 23) := by
  have hu : ulpExp q = e - 23 := by
    unfold ulpExp
    rw [log_two_eq q e hq h1 h2, max_eq_left he]
  unfold roundMag
  rw [hu, hk]

theorem ofInt_natCast (n : ℕ) (h : n ≤ 2 ^ 24) : ofInt (n : Int) = finite false (n : ℚ) := by
  have h1 := ofInt_small (n : Int) (by simpa using h)
  simpa using h1

theorem add_natCast (a b : ℕ) (h : a + b ≤ 2 ^ 24) (hpos : 0 < a + b) :
    add (finite false (a : ℚ)) (finite false (b : ℚ)) = finite false ((a + b : ℕ) : ℚ) := by
  have hne : ¬ ((a : ℚ) + (b : ℚ) = 0) := by
    have : (0 : ℚ) < (a : ℚ) + (b : ℚ) := by exact_mod_cast hpos
    linarith
  have hnn : ¬ ((a : ℚ) + (b : ℚ) < 0) := by
    have : (0 : ℚ) ≤ (a : ℚ) + (b : ℚ) := by positivity
    linarith
  simp only [add, val, Bool.false_eq_true, if_false, hne, hnn, decide_False]
  rw [abs_of_nonneg (by positivity)]
  exact round_eq_natCast false _ (a + b) (by push_cast; rfl) h

theorem toInt32_natCast (n : ℕ) (h : n ≤ 2147483647) :
    toInt32 (finite false (n : ℚ)) = some (n : Int) := by
  have ht : truncate (val false (n : ℚ)) = (n : Int) := by
    have := truncate_intCast (n : Int)
    simpa [val] using this
  simp only [toInt32, ht]
  rw [if_pos ⟨by omega, by omega⟩]

theorem ofInt_zero : ofInt 0 = finite false 0 := by
  simpa using ofInt_natCast 0 (by norm_num)

theorem ofInt_ten : ofInt 10 = finite false 10 := by
  simpa using ofInt_natCast 10 (by norm_num)

theorem ofInt_fortyEight : ofInt 48 = finite false 48 := by
  simpa using ofInt_natCast 48 (by norm_num)

/-- The integer `2 ^ 24 + 1` lies halfway between two binary32 values and converts to the
even one, `2 ^ 24`. -/
theorem ofInt_tie : ofInt 16777217 = finite false 16777216 := by
  have hm : roundMag (16777217 : ℚ) = 16777216 := by
    have hk : roundHalfEven ((16777217 : ℚ) / 2 ^ ((24 : Int) - 23)) = 8388608 :=
      roundHalfEven_tie_even _ 8388608 (by norm_num) (by norm_num)
    rw [roundMag_eq 16777217 24 8388608 (by norm_num) (by norm_num) (by norm_num)
      (by norm_num) hk]
    norm_num
  unfold ofInt round
  have hc : ((Int.natAbs 16777217 : ℕ) : ℚ) = 16777217 := by norm_num
  rw [hc, hm, if_pos (by norm_num)]
  simp

/-- The product `0.7f * 10.0f` is rounded up to `7`. -/
theorem mul_sevenTenths_ten :
    mul (finite false (11744051 / 16777216)) (finite false 10) = finite false 7 := by
  have hm : roundMag ((11744051 / 16777216 : ℚ) * 10) = 7 := by
    have hk : roundHalfEven (((11744051 / 16777216 : ℚ) * 10) / 2 ^ ((2 : Int) - 23))
        = 14680063 + 1 :=
      roundHalfEven_up _ 14680063 (by norm_num) (by norm_num)
    rw [roundMag_eq _ 2 (14680063 + 1) (by norm_num) (by norm_num) (by norm_num)
      (by norm_num) hk]
    norm_num
  simp only [mul, Bool.xor_false]
  unfold round
  rw [hm, if_pos (by norm_num)]

end F32

/-! ## Lemmas on the sample collaborators -/

theorem sample_vCompare_false (n : Bool) (q : ℚ) (h : 0 ≤ F32.val n q) :
    sampleCollab.vCompare (F32.finite n q) F32.negOne = false := by
  simp only [sampleCollab, F32.negOne, decide_eq_false_iff_not, not_lt]
  have hv : F32.val true 1 = -1 := by simp [F32.val]
  rw [hv]
  have h1 : (1 : ℚ) ≤ |F32.val n q - (-1)| := by
    rw [abs_of_nonneg (by linarith)]; linarith
  linarith

theorem sample_clamped_half : clampedPos sampleModel half = half := by
  simp [clampedPos, sampleModel, half, F32.lt, F32.zero, F32.one, F32.val]
  norm_num

theorem sample_frame_half : frameNumber sampleCollab sampleModel half = 24 := by
  have he : frameExpr sampleModel half = F32.finite false 24 := by
    unfold frameExpr
    have h1 : sampleModel.startFrame = 0 := rfl
    have h2 : sampleModel.frameDuration = 48 := rfl
    rw [h1, h2, F32.ofInt_zero, F32.ofInt_fortyEight]
    have hm : F32.mul half (F32.finite false 48) = F32.finite false 24 := by
      simp only [half, F32.mul, Bool.xor_false]
      have := F32.round_eq_natCast false ((1 / 2 : ℚ) * 48) 24 (by norm_num) (by norm_num)
      simpa using this
    rw [hm]
    simpa using F32.add_natCast 0 24 (by norm_num) (by norm_num)
  apply frameNumber_of_toInt32
  rw [he]
  have ht := F32.toInt32_natCast 24 (by norm_num)
  simp only [Nat.cast_ofNat] at ht
  exact ht

theorem sample_setPos_half :
    setPos sampleCollab sampleLoaded half =
      ⟨true, { sampleLoaded with mCompItem := some [24] }, [Call.update 24]⟩ := by
  rw [setPos_loaded sampleCollab sampleLoaded sampleModel [] half rfl rfl,
    sample_clamped_half, show sampleLoaded.mPos = F32.negOne from rfl]
  have hv : sampleCollab.vCompare half F32.negOne = false :=
    sample_vCompare_false _ _ (by norm_num [F32.val])
  rw [hv, sample_frame_half]
  rfl

theorem sample_setFilePath :
    setFilePath sampleCollab (LOTPlayerPrivate.new (List Int)) "anim.json" =
      ⟨true, sampleLoaded, [Call.load "anim.json", Call.create sampleModel]⟩ := by
  unfold setFilePath
  rw [if_neg (by decide)]
  have hl : sampleCollab.load "anim.json" = some sampleModel := by
    simp [sampleCollab]
  rw [hl]
  have he : sampleCollab.isEmpty (LOTPlayerPrivate.new (List Int)).mSize = true := by
    simp [sampleCollab, LOTPlayerPrivate.new]
  simp only [he, Bool.not_true, Bool.false_eq_true, if_false]
  rfl

/-- The loaded sample player with the flag set is a reachable state: it is what a second
caller observes while a `render` of the loaded sample player is running. -/
theorem sampleLoadedBusy_reachable : Reachable sampleCollab sampleLoadedBusy := by
  have h1 : Reachable sampleCollab
      (setFilePath sampleCollab (LOTPlayerPrivate.new (List Int)) "anim.json").state :=
    Reachable.setFilePath _ _ Reachable.new
  rw [sample_setFilePath] at h1
  exact Reachable.renderEntered sampleLoaded h1 rfl

/-! ## Lemmas on the submission loop -/

theorem queueIndex_no_wrap (count i n : Nat) (h : i + n < UNSIGNED_RANGE) :
    queueIndex count i n = (i % count + n) % count := by
  unfold queueIndex
  rw [Nat.mod_eq_of_lt h, Nat.mod_add_mod]

/-- The loop stops at the first iteration whose `try_push` is accepted: the probes are
the queue indices of the iterations up to and including that one, or of all remaining
iterations when none is accepted. -/
theorem tryPushLoop_first_accept (count i : Nat) (accepts : Nat → Nat → Bool) (fuel n : Nat) :
    tryPushLoop count i accepts fuel n =
      match (List.range' n fuel).find? (fun j => accepts j (queueIndex count i j)) with
      | some j => ((List.range' n (j + 1 - n)).map (queueIndex count i),
          some (queueIndex count i j))
      | none => ((List.range' n fuel).map (queueIndex count i), none) := by
  induction fuel generalizing n with
  | zero => rfl
  | succ k ih =>
    rw [tryPushLoop, List.range'_succ, List.find?_cons]
    by_cases ha : accepts n (queueIndex count i n) = true
    · simp [ha]
    · have ha2 : accepts n (queueIndex count i n) = false := by simpa using ha
      simp only [ha2, Bool.false_eq_true, if_false]
      rw [ih (n + 1)]
      cases hf : (List.range' (n + 1) k).find? (fun j => accepts j (queueIndex count i j)) with
      | none => rfl
      | some j =>
        have hmem := List.mem_of_find?_eq_some hf
        rw [List.mem_range'_1] at hmem
        have hj : j + 1 - n = (j + 1 - (n + 1)) + 1 := by omega
        simp only [hj, List.range'_succ, List.map_cons]

theorem find_congr_mem {α : Type} (p q : α → Bool) (l : List α)
    (h : ∀ a ∈ l, p a = q a) : l.find? p = l.find? q := by
  induction l with
  | nil => rfl
  | cons a t ih =>
    rw [List.find?_cons, List.find?_cons, h a (List.mem_cons_self a t),
      ih (fun b hb => h b (List.mem_cons_of_mem a hb))]

/-- As long as the cursor does not wrap during the call (`i + _count ≤ 2^32`), `async`
probes the queues in the cyclic order from `i`, stops at the first probe that is
accepted and puts the task there; when none is accepted it has probed every queue once
and puts the task in queue `i % _count` by the blocking push. -/
theorem async_no_wrap {Task : Type} (sch : RenderTaskScheduler Task) (task : Task)
    (accepts : Nat → Nat → Bool) (h : sch._index + sch._count ≤ UNSIGNED_RANGE) :
    (async sch task accepts).1 =
      match (List.range sch._count).find?
          (fun n => accepts n ((sch._index % sch._count + n) % sch._count)) with
      | some n => ⟨(cyclicOrder sch._count sch._index).take (n + 1),
          (sch._index % sch._count + n) % sch._count, false⟩
      | none => ⟨cyclicOrder sch._count sch._index, sch._index % sch._count, true⟩ := by
  have hq : ∀ n, n < sch._count →
      queueIndex sch._count sch._index n = (sch._index % sch._count + n) % sch._count :=
    fun n hn => queueIndex_no_wrap _ _ _ (by omega)
  have hfind : (List.range' 0 sch._count).find?
        (fun j => accepts j (queueIndex sch._count sch._index j))
      = (List.range sch._count).find?
        (fun n => accepts n ((sch._index % sch._count + n) % sch._count)) := by
    rw [List.range_eq_range']
    apply find_congr_mem
    intro a ha
    rw [List.mem_range'_1] at ha
    rw [hq a (by omega)]
  unfold async
  dsimp only
  rw [tryPushLoop_first_accept, hfind]
  cases hf : (List.range sch._count).find?
      (fun n => accepts n ((sch._index % sch._count + n) % sch._count)) with
  | none =>
    dsimp only
    congr 1
    unfold cyclicOrder
    rw [List.range_eq_range']
    apply List.map_congr_left
    intro n hn
    rw [List.mem_range'_1] at hn
    exact hq n (by omega)
  | some j =>
    have hmem := List.mem_of_find?_eq_some hf
    rw [List.mem_range] at hmem
    dsimp only
    rw [hq j hmem]
    congr 1
    unfold cyclicOrder
    rw [← List.map_take, List.take_range, Nat.min_eq_left (by omega), List.range_eq_range']
    apply List.map_congr_left
    intro n hn
    rw [List.mem_range'_1] at hn
    exact hq n (by omega)

/-! ## Properties of the player and of the submission path -/

/-- C1 fails as stated. With 10 frames from frame 0, `setPos(0.7f)` calls `update 7`: the
float product `0.7f * 10` is rounded to `7` before the conversion, while the truncation
of the exact `0 + 0.7f * 10` is `6`. With a static model starting at frame
`2 ^ 24 + 1`, `setPos` calls `update 16777216`, not the start frame: the conversion of
the start frame to `float` is rounded. -/
theorem setPos_frame_is_rounded :
    sampleLoadedTen.mModel = some sampleModelTen ∧
    sampleCollab.vCompare (clampedPos sampleModelTen sevenTenths) sampleLoadedTen.mPos = false ∧
    clampedPos sampleModelTen sevenTenths = sevenTenths ∧
    (setPos sampleCollab sampleLoadedTen sevenTenths).calls = [Call.update 7] ∧
    F32.truncate ((sampleModelTen.startFrame : ℚ)
      + (11744051 / 16777216) * (sampleModelTen.frameDuration : ℚ)) = 6 ∧
    (setPos sampleCollab sampleLoadedStatic half).calls = [Call.update 16777216] ∧
    sampleModelStatic.startFrame = 16777217 := by
  have hcl : clampedPos sampleModelTen sevenTenths = sevenTenths := by
    simp [clampedPos, sampleModelTen, sevenTenths, F32.lt, F32.zero, F32.one, F32.val]
    norm_num
  have hv : sampleCollab.vCompare sevenTenths sampleLoadedTen.mPos = false :=
    sample_vCompare_false _ _ (by norm_num [F32.val])
  have hf : frameNumber sampleCollab sampleModelTen sevenTenths = 7 := by
    have he : frameExpr sampleModelTen sevenTenths = F32.finite false 7 := by
      unfold frameExpr
      have h1 : sampleModelTen.startFrame = 0 := rfl
      have h2 : sampleModelTen.frameDuration = 10 := rfl
      rw [h1, h2, F32.ofInt_zero, F32.ofInt_ten]
      unfold sevenTenths
      rw [F32.mul_sevenTenths_ten]
      simpa using F32.add_natCast 0 7 (by norm_num) (by norm_num)
    apply frameNumber_of_toInt32
    rw [he]
    have ht := F32.toInt32_natCast 7 (by norm_num)
    simp only [Nat.cast_ofNat] at ht
    exact ht
  have hcs : clampedPos sampleModelStatic half = F32.zero := by
    simp [clampedPos, sampleModelStatic]
  have hvs : sampleCollab.vCompare F32.zero sampleLoadedStatic.mPos = false :=
    sample_vCompare_false _ _ (by norm_num [F32.val])
  have hfs : frameNumber sampleCollab sampleModelStatic F32.zero = 16777216 := by
    have he : frameExpr sampleModelStatic F32.zero = F32.finite false 16777216 := by
      unfold frameExpr
      have h1 : sampleModelStatic.startFrame = 16777217 := rfl
      have h2 : sampleModelStatic.frameDuration = 48 := rfl
      rw [h1, h2, F32.ofInt_tie, F32.ofInt_fortyEight]
      have hz : F32.mul F32.zero (F32.finite false 48) = F32.finite false 0 := by
        have := F32.mul_zero_finite false false 48
        simpa [F32.zero] using this
      rw [hz]
      simpa using F32.add_natCast 16777216 0 (by norm_num) (by norm_num)
    apply frameNumber_of_toInt32
    rw [he]
    have ht := F32.toInt32_natCast 16777216 (by norm_num)
    simp only [Nat.cast_ofNat] at ht
    exact ht
  refine ⟨rfl, by rw [hcl]; exact hv, hcl, ?_, ?_, ?_, rfl⟩
  · rw [setPos_loaded sampleCollab sampleLoadedTen sampleModelTen [] sevenTenths rfl rfl,
      hcl, hv, hf]
    rfl
  · have h1 : sampleModelTen.startFrame = 0 := rfl
    have h2 : sampleModelTen.frameDuration = 10 := rfl
    rw [h1, h2]
    unfold F32.truncate
    rw [if_pos (by norm_num)]
    exact Int.floor_eq_iff.mpr ⟨by norm_num, by norm_num⟩
  · rw [setPos_loaded sampleCollab sampleLoadedStatic sampleModelStatic [] half rfl rfl,
      hcs, hvs, hfs]
    rfl

/-- C1 as amended. On a loaded player, when the clamped position `clampedPos m p` (`0` for
a static animation, else `p` clamped to `[0, 1]`) is not equal within tolerance to the
current position, `setPos p` makes exactly one collaborator call, `update`, and returns
what `update` returned. The frame number passed is the conversion to `int` of the float
expression `startFrame + clampedPos m p * frameDuration`, in which the two integers are
converted to `float` and the product and the sum are each rounded to `float`. It is
`startFrame` for a static animation and for `p < 0` when `|startFrame| ≤ 2 ^ 24` and
`|frameDuration| < 2 ^ 127`, and `startFrame + frameDuration` for `p > 1` on a non-static
animation when `|startFrame|`, `|frameDuration|` and `|startFrame + frameDuration|` are
at most `2 ^ 24`. -/
theorem setPos_calls_update_once (x : Collab Comp Buf) (s : LOTPlayerPrivate Comp)
    (m : LOTModel) (c : Comp) (p : F32) (hm : s.mModel = some m) (hc : s.mCompItem = some c)
    (hne : x.vCompare (clampedPos m p) s.mPos = false) :
    (setPos x s p).calls = [Call.update (frameNumber x m (clampedPos m p))] ∧
    (setPos x s p).ret = (x.update c (frameNumber x m (clampedPos m p))).1 ∧
    (∀ n, F32.toInt32 (F32.add (F32.ofInt m.startFrame)
        (F32.mul (clampedPos m p) (F32.ofInt m.frameDuration))) = some n →
      frameNumber x m (clampedPos m p) = n) ∧
    ((m.isStatic = true ∨ F32.lt p F32.zero = true) →
      m.startFrame.natAbs ≤ 2 ^ 24 → m.frameDuration.natAbs < 2 ^ 127 →
      frameNumber x m (clampedPos m p) = m.startFrame) ∧
    (m.isStatic = false → F32.lt F32.one p = true →
      m.startFrame.natAbs ≤ 2 ^ 24 → m.frameDuration.natAbs ≤ 2 ^ 24 →
      (m.startFrame + m.frameDuration).natAbs ≤ 2 ^ 24 →
      frameNumber x m (clampedPos m p) = m.startFrame + m.frameDuration) := by
  rw [setPos_loaded x s m c p hm hc, hne]
  have hconv : ∀ n, F32.toInt32 (frameExpr m (clampedPos m p)) = some n →
      frameNumber x m (clampedPos m p) = n :=
    fun n hn => frameNumber_of_toInt32 x m _ n hn
  refine ⟨by simp, by simp, hconv, ?_, ?_⟩
  · intro hcase hs hd
    have h0 : clampedPos m p = F32.zero := by
      unfold clampedPos
      rcases hcase with h | h
      · simp [h]
      · simp [h]
    apply hconv
    unfold frameExpr
    rw [h0, F32.ofInt_small _ hs, F32.ofInt_finite _ hd]
    unfold F32.zero
    rw [F32.mul_zero_finite]
    exact F32.toInt32_add_zero _ _ hs
  · intro hst h1 hs hd hsum
    have h0 : clampedPos m p = F32.one := by
      unfold clampedPos
      have hneg : F32.lt p F32.zero = false := by
        cases p with
        | nan => rfl
        | inf n => cases n <;> simp [F32.lt, F32.one, F32.zero] at h1 ⊢
        | finite n q =>
          simp only [F32.lt, F32.one, F32.zero, F32.val, Bool.false_eq_true, if_false,
            decide_eq_true_eq, decide_eq_false_iff_not, not_lt] at h1 ⊢
          linarith
      simp [hst, hneg, h1]
    apply hconv
    unfold frameExpr
    rw [h0, F32.ofInt_small _ hs, F32.ofInt_small _ hd, F32.mul_one_signed _ hd]
    exact F32.toInt32_add_signed _ _ hsum

/-- C1 as amended, at the loaded sample player and the request `2`: the request is
clamped to `1` and the single call is `update 48`. -/
theorem setPos_calls_update_once_witness :
    sampleCollab.vCompare (clampedPos sampleModel (F32.finite false 2)) sampleLoaded.mPos
      = false ∧
    (setPos sampleCollab sampleLoaded (F32.finite false 2)).calls = [Call.update 48] ∧
    (setPos sampleCollab sampleLoaded (F32.finite false 2)).ret = true := by
  have h1 : F32.lt F32.one (F32.finite false 2) = true := by
    simp [F32.lt, F32.one, F32.val]
  have hcl : clampedPos sampleModel (F32.finite false 2) = F32.one := by
    have h0 : F32.lt (F32.finite false 2) F32.zero = false := by
      simp [F32.lt, F32.zero, F32.val]
    simp [clampedPos, sampleModel, h0, h1]
  have hv : sampleCollab.vCompare (clampedPos sampleModel (F32.finite false 2))
      sampleLoaded.mPos = false := by
    rw [hcl]
    exact sample_vCompare_false _ _ (by norm_num [F32.val])
  have h := setPos_calls_update_once sampleCollab sampleLoaded sampleModel []
    (F32.finite false 2) rfl rfl hv
  have hf := h.2.2.2.2 rfl h1 (by norm_num [sampleModel]) (by norm_num [sampleModel])
    (by norm_num [sampleModel])
  refine ⟨hv, ?_, ?_⟩
  · rw [h.1, hf]; rfl
  · rw [h.2.1, hf]; rfl

/-- C2, evaluated on the code. On a new player `setFilePath "anim.json"` succeeds; the
following `setPos 0` calls `update 0`, and `pos` afterwards is still the value `-1` set by
the constructor, not the applied position `0`. -/
theorem pos_stale_after_setPos :
    (setFilePath sampleCollab (LOTPlayerPrivate.new (List Int)) "anim.json").ret = true ∧
    (setPos sampleCollab
      (setFilePath sampleCollab (LOTPlayerPrivate.new (List Int)) "anim.json").state
        F32.zero).calls = [Call.update 0] ∧
    pos (setPos sampleCollab
      (setFilePath sampleCollab (LOTPlayerPrivate.new (List Int)) "anim.json").state
        F32.zero).state = F32.negOne := by
  rw [sample_setFilePath]
  refine ⟨rfl, ?_, ?_⟩
  · have hz : clampedPos sampleModel F32.zero = F32.zero := by
      simp [clampedPos, sampleModel, F32.lt, F32.zero, F32.one, F32.val]
    have hv : sampleCollab.vCompare F32.zero sampleLoaded.mPos = false :=
      sample_vCompare_false _ _ (by norm_num [F32.val])
    have hf : frameNumber sampleCollab sampleModel F32.zero = 0 := by
      apply frameNumber_of_toInt32
      unfold frameExpr
      have h1 : sampleModel.startFrame = 0 := rfl
      have h2 : sampleModel.frameDuration = 48 := rfl
      rw [h1, h2, F32.ofInt_zero, F32.ofInt_fortyEight]
      unfold F32.zero
      rw [F32.mul_zero_finite]
      have h0 := F32.toInt32_add_zero 0 (xor false false) (by norm_num)
      simpa using h0
    show (setPos sampleCollab sampleLoaded F32.zero).calls = _
    rw [setPos_loaded sampleCollab sampleLoaded sampleModel [] F32.zero rfl rfl, hz, hv, hf]
    rfl
  · show (setPos sampleCollab sampleLoaded F32.zero).state.mPos = F32.negOne
    rw [(setPos_fields sampleCollab sampleLoaded F32.zero).2.2.2.2.1]
    rfl

/-- C3, evaluated on the code. On the loaded sample player the first `setPos(0.5)` calls
`update 24`, and the second `setPos(0.5)` calls `update 24` again instead of returning
early: two updates in total. -/
theorem setPos_twice_updates_twice :
    (setPos sampleCollab sampleLoaded half).calls = [Call.update 24] ∧
    (setPos sampleCollab (setPos sampleCollab sampleLoaded half).state half).calls
      = [Call.update 24] ∧
    ((setPos sampleCollab sampleLoaded half).calls ++
      (setPos sampleCollab (setPos sampleCollab sampleLoaded half).state half).calls).length
        = 2 := by
  have h2 := setPos_repeat_calls sampleCollab sampleLoaded half
  rw [h2, sample_setPos_half]
  exact ⟨rfl, rfl, rfl⟩

/-- C5. `playTime` is the float `0` for a player without a model and for a static model;
for a non-static model it is the float quotient of `frameDuration` converted to `float`
by `frameRate` (rounded to `float`; an infinity or a NaN when `frameRate` is a zero),
which is `2` for `frameDuration = 48` and `frameRate = 24`. -/
theorem playTime_cases (s : LOTPlayerPrivate Comp) :
    (s.mModel = none → playTime s = F32.zero) ∧
    (∀ m, s.mModel = some m → m.isStatic = true → playTime s = F32.zero) ∧
    (∀ m, s.mModel = some m → m.isStatic = false →
      playTime s = F32.div (F32.ofInt m.frameDuration) m.frameRate) ∧
    (∀ m, s.mModel = some m → m.isStatic = false → m.frameDuration = 48 →
      m.frameRate = F32.finite false 24 → playTime s = F32.finite false 2) := by
  unfold playTime
  refine ⟨?_, ?_, ?_, ?_⟩
  · intro h; rw [h]
  · intro m h hs; rw [h]; simp [hs]
  · intro m h hs; rw [h]; simp [hs]
  · intro m h hs hd hr
    rw [h]
    simp only [hs, Bool.false_eq_true, if_false, hd, hr, F32.ofInt_fortyEight]
    have h24 : ¬ ((24 : ℚ) = 0) := by norm_num
    simp only [F32.div, h24, if_false, Bool.xor_false]
    have h2 := F32.round_eq_natCast false ((48 : ℚ) / 24) 2 (by norm_num) (by norm_num)
    simpa using h2

/-- C5 at a new player (no model) and at the loaded sample player (48 frames at 24 per
second). -/
theorem playTime_cases_witness :
    playTime (LOTPlayerPrivate.new (List Int)) = F32.zero ∧
    playTime sampleLoaded = F32.finite false 2 :=
  ⟨(playTime_cases (LOTPlayerPrivate.new (List Int))).1 rfl,
   (playTime_cases sampleLoaded).2.2.2 sampleModel rfl rfl rfl rfl⟩

/-- C6. On a player without a composition item, `render` and `setPos` both return
`false`, make no collaborator call and leave the player record as it was. -/
theorem unloaded_render_setPos_noop (x : Collab Comp Buf) (s : LOTPlayerPrivate Comp)
    (p : F32) (b : Buf) (h : s.mCompItem = none) :
    render x s p b = ⟨false, s, []⟩ ∧ setPos x s p = ⟨false, s, []⟩ :=
  ⟨render_unloaded x s p b h, setPos_unloaded x s p (Or.inr h)⟩

/-- C6 at a new player. -/
theorem unloaded_render_setPos_noop_witness :
    render sampleCollab (LOTPlayerPrivate.new (List Int)) half true
      = ⟨false, LOTPlayerPrivate.new (List Int), []⟩ ∧
    setPos sampleCollab (LOTPlayerPrivate.new (List Int)) half
      = ⟨false, LOTPlayerPrivate.new (List Int), []⟩ :=
  unloaded_render_setPos_noop sampleCollab (LOTPlayerPrivate.new (List Int)) half true rfl

/-- C7. When the path is empty or the loader fails, `setFilePath` returns `false` and the
player record afterwards is the record before the call; with an empty path no
collaborator is called, otherwise the only call is the failed `load`. -/
theorem setFilePath_failure (x : Collab Comp Buf) (s : LOTPlayerPrivate Comp) (path : String)
    (h : path.isEmpty = true ∨ x.load path = none) :
    (setFilePath x s path).ret = false ∧
    (setFilePath x s path).state = s ∧
    (path.isEmpty = true → (setFilePath x s path).calls = []) ∧
    (path.isEmpty = false → (setFilePath x s path).calls = [Call.load path]) := by
  unfold setFilePath
  by_cases he : path.isEmpty = true
  · simp [he]
  · rcases h with h | h
    · exact absurd h he
    · simp [he, h]

/-- C7 at the loaded sample player, with the empty path and with a path the loader does
not know. -/
theorem setFilePath_failure_witness :
    (setFilePath sampleCollab sampleLoaded "").ret = false ∧
    (setFilePath sampleCollab sampleLoaded "").state = sampleLoaded ∧
    (setFilePath sampleCollab sampleLoaded "").calls = [] ∧
    (setFilePath sampleCollab sampleLoaded "missing.json").ret = false ∧
    (setFilePath sampleCollab sampleLoaded "missing.json").state = sampleLoaded ∧
    (setFilePath sampleCollab sampleLoaded "missing.json").calls = [Call.load "missing.json"] :=
  have h1 := setFilePath_failure sampleCollab sampleLoaded "" (Or.inl (by decide))
  have h2 := setFilePath_failure sampleCollab sampleLoaded "missing.json"
    (Or.inr (by simp [sampleCollab]))
  ⟨h1.1, h1.2.1, h1.2.2.1 (by decide), h2.1, h2.2.1, h2.2.2.2 (by decide)⟩

/-- C8, evaluated on the code. With three queues and the cursor at `4294967295`, a
submission that only queue 2 would accept probes the queues `0, 0, 1` (the sum `i + 1`
wraps to `0`), never probes queue 2 and puts the task in queue 0 by the blocking push;
the cyclic order from `i` is `0, 1, 2`. -/
theorem async_wrap_skips_a_queue :
    (async sampleScheduler 7 (fun _ k => decide (k = 2))).1 = ⟨[0, 0, 1], 0, true⟩ ∧
    (async sampleScheduler 7 (fun _ k => decide (k = 2))).2._q = [[7], [], []] ∧
    cyclicOrder 3 4294967295 = [0, 1, 2] := by
  decide

/-- C9. Whatever the flag on entry, loaded or not, `mRenderInProgress` is `false` when
`render` returns. The hypothesis is the invariant of the player record, which holds in
every state an execution reaches: the flag is set only on a player that has a composition
item (`render` stores it after the test of `mCompItem`, which is never reset to null). On
a player without a composition item the early return leaves the flag as it is, which is
`false`. -/
theorem render_clears_flag (x : Collab Comp Buf) (s : LOTPlayerPrivate Comp)
    (p : F32) (b : Buf) (h : s.mRenderInProgress = true → s.mCompItem.isSome = true) :
    (render x s p b).state.mRenderInProgress = false := by
  cases hc : s.mCompItem with
  | some c => exact (render_fields x s p b).2.1 (by rw [hc]; rfl)
  | none =>
    rw [(render_fields x s p b).2.2.1 hc]
    cases hf : s.mRenderInProgress with
    | false => rfl
    | true =>
      have h2 := h hf
      rw [hc] at h2
      exact absurd h2 (by simp)

/-- C9 at the loaded sample player entered with the flag set, with a render that succeeds
and with one whose `setPos` is followed by a failing composition render. -/
theorem render_clears_flag_witness :
    sampleLoadedBusy.mRenderInProgress = true ∧
    (render sampleCollab sampleLoadedBusy half true).state.mRenderInProgress = false ∧
    (render sampleCollab sampleLoadedBusy half false).state.mRenderInProgress = false :=
  ⟨rfl, render_clears_flag sampleCollab sampleLoadedBusy half true (fun _ => rfl),
   render_clears_flag sampleCollab sampleLoadedBusy half false (fun _ => rfl)⟩

/-- C10 fails as stated. The loaded sample player with the flag set on entry: `setPos`
returns `true`, the composition item then fails to render, `render` returns `false`, and
the data member `mRenderInProgress` has changed from `true` to `false`. -/
theorem render_failed_changes_flag :
    sampleLoadedBusy.mCompItem = some [] ∧
    (setPos sampleCollab sampleLoadedBusy half).ret = true ∧
    (sampleCollab.render [24] false).1 = false ∧
    (render sampleCollab sampleLoadedBusy half false).ret = false ∧
    (render sampleCollab sampleLoadedBusy half false).state.mRenderInProgress
      ≠ sampleLoadedBusy.mRenderInProgress := by
  have hv : sampleCollab.vCompare half F32.negOne = false :=
    sample_vCompare_false _ _ (by norm_num [F32.val])
  have hs : setPos sampleCollab sampleLoadedBusy half =
      ⟨true, { sampleLoadedBusy with mCompItem := some [24] }, [Call.update 24]⟩ := by
    rw [setPos_loaded sampleCollab sampleLoadedBusy sampleModel [] half rfl rfl,
      sample_clamped_half, show sampleLoadedBusy.mPos = F32.negOne from rfl,
      hv, sample_frame_half]
    rfl
  obtain ⟨c1, h1, hr⟩ := render_loaded sampleCollab sampleLoadedBusy [] half false rfl
  rw [hs] at h1 hr
  have hc1 : c1 = [24] := (Option.some.inj h1).symm
  subst hc1
  rw [hr, hs]
  refine ⟨rfl, rfl, rfl, rfl, ?_⟩
  simp [sampleLoadedBusy]

/-- C10 as amended. For a player with a composition item, `render` returns `true` exactly
when `setPos` returned `true` and the render of the composition item then returned `true`;
its collaborator calls are those of `setPos` followed by one `render` call when `setPos`
returned `true` and by none otherwise; and when that `render` call returns `false`,
`render` returns `false` and the player record is the entry record with the composition
item as its own `update` and `render` left it and `mRenderInProgress` cleared. -/
theorem render_result (x : Collab Comp Buf) (s : LOTPlayerPrivate Comp) (c : Comp)
    (p : F32) (b : Buf) (hc : s.mCompItem = some c) :
    ∃ c1, (setPos x s p).state.mCompItem = some c1 ∧
      ((render x s p b).ret = true ↔ (setPos x s p).ret = true ∧ (x.render c1 b).1 = true) ∧
      (render x s p b).calls
        = (setPos x s p).calls ++ (if (setPos x s p).ret then [Call.render b] else []) ∧
      ((render x s p b).calls.filter Call.isRender).length
        = (if (setPos x s p).ret then 1 else 0) ∧
      ((setPos x s p).ret = true → (x.render c1 b).1 = false →
        (render x s p b).ret = false ∧
        (render x s p b).state
          = { s with mCompItem := some (x.render c1 b).2, mRenderInProgress := false }) := by
  obtain ⟨c1, h1, hr⟩ := render_loaded x s c p b hc
  refine ⟨c1, h1, ?_⟩
  have hn := setPos_calls_no_render x s p
  cases hret : (setPos x s p).ret with
  | true =>
    rw [hret, if_pos rfl] at hr
    rw [hr]
    refine ⟨by simp, by simp, ?_, ?_⟩
    · simp [List.filter_append, hn, Call.isRender]
    · intro _ hq
      exact ⟨hq, rfl⟩
  | false =>
    rw [hret, if_neg (by simp)] at hr
    rw [hr]
    refine ⟨by simp, by simp, ?_, ?_⟩
    · simp [hn]
    · intro h
      simp at h

/-- C10 as amended, at the loaded sample player with a buffer the composition item fails
to render: the calls are `update 24` then `render`, the result is `false`, and the record
differs from the entry record only in the composition item. -/
theorem render_result_witness :
    (render sampleCollab sampleLoaded half false).ret = false ∧
    (render sampleCollab sampleLoaded half false).calls
      = [Call.update 24, Call.render false] ∧
    (render sampleCollab sampleLoaded half false).state
      = { sampleLoaded with mCompItem := some [24] } := by
  obtain ⟨c1, h1, -, h3, -, h5⟩ := render_result sampleCollab sampleLoaded [] half false rfl
  rw [sample_setPos_half] at h1 h3 h5
  have hc1 : c1 = [24] := (Option.some.inj h1).symm
  subst hc1
  have h6 := h5 rfl rfl
  exact ⟨h6.1, h3, h6.2⟩

end Lottie
